import Mathlib

/-!
Verification of `scripts/get-cordova-plugins-names.js`.

The script is embedded shallowly:

* JavaScript strings are Lean `String`s; a value that may be JS `null` or
  `undefined` is an `Option String` (`none` = null/undefined).
* JS truthiness of such a value (`if (x)`) is `jsTruthy`: `none` and the
  empty string are falsy, every other string is truthy.
* `String.prototype.split(sep)` for a one-character separator is `jsSplit`,
  defined by structural recursion on the character list so that concrete
  evaluations reduce in the kernel; `arr[0]` is `List.headD _ ""` (the split
  result is never empty) and `arr[1]` is `l[1]?` (JS `undefined` = `none`).
* The filesystem is a `Disk` record of probe functions keyed by the plugin
  folder name (the script only ever probes `plugins/<folder>/plugin.xml`
  and `plugins/<folder>/package.json`).
* The `semver` npm package (an external dependency of the script, not part
  of the repository) is modelled after its documented strict semantics on
  the fragment the script can reach: full `major.minor.patch` versions with
  optional prerelease/build parts, and ranges made of `||`-separated sets
  of comparators `=`, `<`, `<=`, `>`, `>=`, `^`, `~`, `*`, bare versions and
  the empty (match-all) range.  Functions that the library makes throw on
  invalid input return `Except` here.
* Exceptions escaping the reconciler are the `Except` error channel of
  `processOne`/`postProcessPluginsInfo`; terminal colouring is the
  `Emphasis` annotation of a table `Cell`.
-/

/-! ## JS value and string helpers -/

/-- JS truthiness of a nullable string: `null`/`undefined` and `""` are falsy. -/
def jsTruthy : Option String → Bool
  | none => false
  | some s => !s.data.isEmpty

/-- The string content of a nullable string (only used under a truthiness guard). -/
def strOf : Option String → String
  | none => ""
  | some s => s

/-- JS string coercion as it happens in `x + "@"`: `undefined` prints as "undefined". -/
def jsToStr : Option String → String
  | none => "undefined"
  | some s => s

/-- JS `a || b` on nullable strings: the first truthy operand, else the second. -/
def jsOr (a b : Option String) : Option String :=
  if jsTruthy a then a else b

/-- Core of the JS `split` model: returns the first chunk and the remaining
chunks of `l` split at every occurrence of `sep`. -/
def splitCharCore (sep : Char) : List Char → List Char × List (List Char)
  | [] => ([], [])
  | c :: cs =>
    let p := splitCharCore sep cs
    if c = sep then ([], p.1 :: p.2) else (c :: p.1, p.2)

/-- JS `String.prototype.split` with a one-character separator, on char lists. -/
def jsSplitL (sep : Char) (l : List Char) : List (List Char) :=
  (splitCharCore sep l).1 :: (splitCharCore sep l).2

/-- JS `String.prototype.split` with a one-character separator. -/
def jsSplit (sep : Char) (s : String) : List String :=
  (jsSplitL sep s.data).map (fun l => ⟨l⟩)

/-- Join chunks back with a separator character (used for spec-side statements). -/
def joinChar (sep : Char) : List (List Char) → List Char
  | [] => []
  | [x] => x
  | x :: y :: xs => x ++ sep :: joinChar sep (y :: xs)

example : jsSplit '@' "a@b@c" = ["a", "b", "c"] := rfl
example : jsSplit '@' "" = [""] := rfl
example : jsSplit '@' "a@" = ["a", ""] := rfl

/-! ## Data model: declarations, disk, records
(source: `readPluginInfoFromDisk`, lines 72-123) -/

/-- A `cordovaPlugins` entry: either a bare string `"name@version"`, or a
structured object `{locator?, id?, version?}` (absent fields are `none`). -/
inductive PluginDeclaration where
  | strD (s : String)
  | objD (locator : Option String) (pid : Option String) (versionF : Option String)
deriving DecidableEq

/-- The filesystem as seen by the script, keyed by plugin folder name:
existence of `plugins/<folder>/plugin.xml` and `plugins/<folder>/package.json`,
the `version` field of the manifest and the `version` attribute of the
descriptor (absent field/attribute = `none`). -/
structure Disk where
  pluginXmlExists : String → Bool
  pkgJsonExists : String → Bool
  pkgJsonVersionField : String → Option String
  pluginXmlVersionAttr : String → Option String

/-- `getVersionFromJSON` (lines 38-45): `null` when the manifest file does not
exist, otherwise its `version` field. -/
def getVersionFromJSON (d : Disk) (folder : String) : Option String :=
  if d.pkgJsonExists folder then d.pkgJsonVersionField folder else none

/-- `getVersionFromXML` (lines 51-61): `null` when the descriptor file does not
exist, otherwise the `version` attribute of its root `plugin` element. -/
def getVersionFromXML (d : Disk) (folder : String) : Option String :=
  if d.pluginXmlExists folder then d.pluginXmlVersionAttr folder else none

/-- The working record built per declaration (lines 103-110). -/
structure PluginRecord where
  pluginName : String
  pluginFolder : String
  expectedVersion : Option String
  installedVersionJson : Option String
  installedVersionXml : Option String
  newestVersion : Option String
deriving DecidableEq

/-- Lines 79-91: normalisation of a declaration to a `name@version` string.
A structured declaration whose locator is truthy and contains `@` uses the
locator verbatim; otherwise `id + "@" + (version || '')` is synthesized
(JS coerces an undefined `id` to the string "undefined"). -/
def pluginNameAndVersionOf : PluginDeclaration → String
  | .strD s => s
  | .objD loc pid ver =>
    if jsTruthy loc = true ∧ '@' ∈ (strOf loc).data then strOf loc
    else jsToStr pid ++ "@" ++ (if jsTruthy ver then strOf ver else "")

/-- Line 93: `pluginNameAndVersion.split('@')[0]`. -/
def pluginNameOf (decl : PluginDeclaration) : String :=
  (jsSplit '@' (pluginNameAndVersionOf decl)).headD ""

/-- Line 94: `pluginNameAndVersion.split('@')[1]` (may be JS `undefined`). -/
def expectedVersionOf (decl : PluginDeclaration) : Option String :=
  (jsSplit '@' (pluginNameAndVersionOf decl))[1]?

/-- Line 98: `pluginInfo.id ? pluginInfo.id : pluginName` (a bare-string
declaration has no `id` property, so it always falls back to the name). -/
def pluginFolderOf (decl : PluginDeclaration) : String :=
  match decl with
  | .objD _ pid _ => if jsTruthy pid then strOf pid else pluginNameOf decl
  | .strD _ => pluginNameOf decl

/-- Lines 76-120: the record built for one declaration.  The manifest and
descriptor probes both happen only under the line-112 guard that the
descriptor file exists. -/
def readOnePlugin (d : Disk) (decl : PluginDeclaration) : PluginRecord :=
  let folder := pluginFolderOf decl
  { pluginName := pluginNameOf decl
    pluginFolder := folder
    expectedVersion := expectedVersionOf decl
    installedVersionJson :=
      if d.pluginXmlExists folder then getVersionFromJSON d folder else none
    installedVersionXml :=
      if d.pluginXmlExists folder then getVersionFromXML d folder else none
    newestVersion := none }

/-- `readPluginInfoFromDisk` (lines 72-123): one record per declaration, in
declaration order. -/
def readPluginInfoFromDisk (d : Disk) (decls : List PluginDeclaration) : List PluginRecord :=
  decls.map (readOnePlugin d)

def emptyDisk : Disk :=
  { pluginXmlExists := fun _ => false
    pkgJsonExists := fun _ => false
    pkgJsonVersionField := fun _ => none
    pluginXmlVersionAttr := fun _ => none }

example : pluginNameOf (.strD "cordova-plugin-calendar@4.5.1") = "cordova-plugin-calendar" := rfl
example : expectedVersionOf (.strD "cordova-plugin-calendar@4.5.1") = some "4.5.1" := rfl
example : expectedVersionOf (.strD "cordova-plugin-calendar") = none := rfl
example :
    pluginFolderOf (.objD (some "cordova-plugin-facebook4@1.7.1") (some "cordova-plugin-facebook4") none)
      = "cordova-plugin-facebook4" := rfl
example : expectedVersionOf (.objD none (some "x") none) = some "" := rfl

/-! ## Model of the `semver` npm package: versions
The script's version comparisons go through the external `semver` library
(lines 170, 172, 179, 181).  The library is not part of this repository; the
model below follows its documented strict semantics (semver.org precedence,
node-semver range containment) on the fragment described in the header.
Validity here is a subset of the library's (no leading `v`, no surrounding
whitespace, no partial versions in ranges): wherever the model accepts an
input it agrees with the library. -/

/-- A prerelease identifier: numeric, or alphanumeric (stored as chars). -/
inductive PreId where
  | num (n : Nat)
  | alpha (s : List Char)
deriving DecidableEq

/-- A parsed semantic version (build metadata is validated then dropped;
it never takes part in precedence). -/
structure SemVer where
  major : Nat
  minor : Nat
  patch : Nat
  prerelease : List PreId
deriving DecidableEq

def isIdentChar (c : Char) : Bool :=
  c.isAlphanum || c = '-'

/-- No leading zero (semver strict numeric identifiers). -/
def noLeadingZero : List Char → Bool
  | '0' :: _ :: _ => false
  | _ => true

def digitsToNat (l : List Char) : Nat :=
  l.foldl (fun acc c => acc * 10 + (c.toNat - 48)) 0

/-- A strict semver numeric identifier: nonempty digits, no leading zero,
at most `Number.MAX_SAFE_INTEGER`. -/
def parseNumericId (l : List Char) : Option Nat :=
  if l.isEmpty then none
  else if !(l.all Char.isDigit) then none
  else if !noLeadingZero l then none
  else if digitsToNat l > 9007199254740991 then none
  else some (digitsToNat l)

/-- A prerelease identifier: numeric (strict) or alphanumeric `[0-9A-Za-z-]+`. -/
def parsePreId (l : List Char) : Option PreId :=
  if l.isEmpty then none
  else if l.all Char.isDigit then
    if noLeadingZero l then some (.num (digitsToNat l)) else none
  else if l.all isIdentChar then some (.alpha l) else none

/-- A build identifier: nonempty `[0-9A-Za-z-]+`. -/
def validBuildId (l : List Char) : Bool :=
  !l.isEmpty && l.all isIdentChar

/-- `major.minor.patch`: exactly three strict numeric identifiers. -/
def parseMain (l : List Char) : Option (Nat × Nat × Nat) :=
  match jsSplitL '.' l with
  | [a, b, c] =>
    match parseNumericId a, parseNumericId b, parseNumericId c with
    | some x, some y, some z => some (x, y, z)
    | _, _, _ => none
  | _ => none

/-- Version core with optional `-prerelease` (identifiers may themselves
contain `-`, so everything after the first `-` is the prerelease part). -/
def parseVerPre (l : List Char) : Option SemVer :=
  match jsSplitL '-' l with
  | [] => none
  | mainPart :: rest =>
    match parseMain mainPart with
    | none => none
    | some (ma, mi, pa) =>
      if rest.isEmpty then some ⟨ma, mi, pa, []⟩
      else
        match (jsSplitL '.' (joinChar '-' rest)).mapM parsePreId with
        | some ids => some ⟨ma, mi, pa, ids⟩
        | none => none

/-- `new SemVer(s)` on a char list: optional `+build` (validated, dropped),
then core and prerelease.  At most one `+` can occur in a valid version. -/
def parseSemVerL (l : List Char) : Option SemVer :=
  if l.length > 256 then none
  else
    match jsSplitL '+' l with
    | [vp] => parseVerPre vp
    | [vp, build] =>
      if (jsSplitL '.' build).all validBuildId then parseVerPre vp else none
    | _ => none

/-- `new SemVer(s)`: `none` models the library throwing `Invalid Version`. -/
def parseSemVer (s : String) : Option SemVer :=
  parseSemVerL s.data

example : parseSemVer "1.2.3" = some ⟨1, 2, 3, []⟩ := rfl
example : parseSemVer "10.0.0" = some ⟨10, 0, 0, []⟩ := rfl
example : parseSemVer "1.2.3-alpha.7" = some ⟨1, 2, 3, [.alpha "alpha".data, .num 7]⟩ := rfl
example : parseSemVer "1.2.3+build.5" = some ⟨1, 2, 3, []⟩ := rfl
example : parseSemVer "1.2" = none := rfl
example : parseSemVer "oops" = none := rfl
example : parseSemVer "01.2.3" = none := rfl
example : parseSemVer "" = none := rfl

/-! ### Precedence (semver.org item 11 / the library's `compare`) -/

/-- Lexicographic (code-point) comparison of char lists, as JS `<`/`>` on
ASCII strings. -/
def compareChars : List Char → List Char → Ordering
  | [], [] => .eq
  | [], _ :: _ => .lt
  | _ :: _, [] => .gt
  | a :: as, b :: bs =>
    match compare a.toNat b.toNat with
    | .eq => compareChars as bs
    | o => o

/-- `compareIdentifiers`: numeric identifiers compare numerically and are
lower than alphanumeric ones; alphanumeric ones compare as strings. -/
def comparePreId : PreId → PreId → Ordering
  | .num a, .num b => compare a b
  | .num _, .alpha _ => .lt
  | .alpha _, .num _ => .gt
  | .alpha a, .alpha b => compareChars a b

/-- Pairwise comparison of prerelease identifier lists; a strict prefix is
lower. -/
def comparePreList : List PreId → List PreId → Ordering
  | [], [] => .eq
  | [], _ :: _ => .lt
  | _ :: _, [] => .gt
  | a :: as, b :: bs =>
    match comparePreId a b with
    | .eq => comparePreList as bs
    | o => o

/-- `comparePre`: a version without prerelease is higher than any prerelease
of the same core. -/
def comparePre : List PreId → List PreId → Ordering
  | [], [] => .eq
  | [], _ :: _ => .gt
  | _ :: _, [] => .lt
  | a :: as, b :: bs => comparePreList (a :: as) (b :: bs)

/-- Semantic-version precedence (the library's `compare`). -/
def semverCompare (x y : SemVer) : Ordering :=
  (compare x.major y.major).then
    ((compare x.minor y.minor).then
      ((compare x.patch y.patch).then (comparePre x.prerelease y.prerelease)))

def svGt (a b : SemVer) : Bool := semverCompare a b == .gt
def svLt (a b : SemVer) : Bool := semverCompare a b == .lt
def svLte (a b : SemVer) : Bool := semverCompare a b != .gt
def svGte (a b : SemVer) : Bool := semverCompare a b != .lt

example : semverCompare ⟨2, 0, 0, []⟩ ⟨10, 0, 0, []⟩ = .lt := rfl
example : semverCompare ⟨1, 0, 0, [.alpha "alpha".data]⟩ ⟨1, 0, 0, []⟩ = .lt := rfl
example : semverCompare ⟨1, 0, 0, [.num 1]⟩ ⟨1, 0, 0, [.alpha "alpha".data]⟩ = .lt := rfl
example : semverCompare ⟨1, 0, 0, [.alpha "alpha".data]⟩
    ⟨1, 0, 0, [.alpha "alpha".data, .num 1]⟩ = .lt := rfl

/-! ### Ranges (node-semver `Range`, `satisfies`, `outside`/`gtr`/`ltr`) -/

inductive CompOp where
  | eqOp
  | ltOp
  | lteOp
  | gtOp
  | gteOp
deriving DecidableEq

/-- One comparator of a comparator set: match-all (`*` or empty), or an
operator applied to a version (a bare version is the `=` operator). -/
inductive RangeComp where
  | anyV
  | cmpV (op : CompOp) (v : SemVer)
deriving DecidableEq

/-- Caret desugaring (`^x.y.z`): no change of the leftmost nonzero part. -/
def caretDesugar (v : SemVer) : List RangeComp :=
  if v.major > 0 then
    [.cmpV .gteOp v, .cmpV .ltOp ⟨v.major + 1, 0, 0, []⟩]
  else if v.minor > 0 then
    [.cmpV .gteOp v, .cmpV .ltOp ⟨0, v.minor + 1, 0, []⟩]
  else
    [.cmpV .gteOp v, .cmpV .ltOp ⟨0, 0, v.patch + 1, []⟩]

/-- Tilde desugaring (`~x.y.z`): patch-level changes allowed. -/
def tildeDesugar (v : SemVer) : List RangeComp :=
  [.cmpV .gteOp v, .cmpV .ltOp ⟨v.major, v.minor + 1, 0, []⟩]

/-- One comparator token of a range. -/
def parseComparatorTok (l : List Char) : Option (List RangeComp) :=
  match l with
  | [] => some [.anyV]
  | ['*'] => some [.anyV]
  | ['x'] => some [.anyV]
  | ['X'] => some [.anyV]
  | '^' :: rest => (parseSemVerL rest).map caretDesugar
  | '~' :: rest => (parseSemVerL rest).map tildeDesugar
  | '>' :: '=' :: rest => (parseSemVerL rest).map (fun v => [.cmpV .gteOp v])
  | '<' :: '=' :: rest => (parseSemVerL rest).map (fun v => [.cmpV .lteOp v])
  | '>' :: rest => (parseSemVerL rest).map (fun v => [.cmpV .gtOp v])
  | '<' :: rest => (parseSemVerL rest).map (fun v => [.cmpV .ltOp v])
  | '=' :: rest => (parseSemVerL rest).map (fun v => [.cmpV .eqOp v])
  | _ => (parseSemVerL l).map (fun v => [.cmpV .eqOp v])

/-- Split a range on the `||` separator. -/
def splitBars : List Char → List Char × List (List Char)
  | [] => ([], [])
  | '|' :: '|' :: rest =>
    let p := splitBars rest
    ([], p.1 :: p.2)
  | c :: rest =>
    let p := splitBars rest
    (c :: p.1, p.2)

/-- One whitespace-separated comparator set; an empty set is match-all. -/
def parseCompSet (l : List Char) : Option (List RangeComp) :=
  let toks := (jsSplitL ' ' l).filter (fun t => !t.isEmpty)
  if toks.isEmpty then some [.anyV]
  else
    match toks.mapM parseComparatorTok with
    | some css => some css.flatten
    | none => none

/-- `new Range(s)`: `||`-separated comparator sets; `none` models the library
throwing `Invalid Version`/`Invalid Comparator`. -/
def parseRange (s : String) : Option (List (List RangeComp)) :=
  ((splitBars s.data).1 :: (splitBars s.data).2).mapM parseCompSet

/-- `Comparator.test`: a match-all comparator accepts every version. -/
def compSatisfied (v : SemVer) : RangeComp → Bool
  | .anyV => true
  | .cmpV op w =>
    match op with
    | .eqOp => semverCompare v w == .eq
    | .ltOp => svLt v w
    | .lteOp => svLte v w
    | .gtOp => svGt v w
    | .gteOp => svGte v w

/-- The prerelease-exclusion exception of `testSet`: a prerelease version is
only admitted when some comparator of the set carries a prerelease on the
same `major.minor.patch` core. -/
def prereleaseAllowed (v : SemVer) : RangeComp → Bool
  | .anyV => false
  | .cmpV _ w =>
    !w.prerelease.isEmpty && w.major == v.major && w.minor == v.minor && w.patch == v.patch

/-- `testSet`: all comparators hold, and prerelease versions pass the
prerelease-exclusion rule. -/
def testSet (set : List RangeComp) (v : SemVer) : Bool :=
  set.all (compSatisfied v) && (v.prerelease.isEmpty || set.any (prereleaseAllowed v))

/-- `Range.test`/`satisfies`: some comparator set accepts the version. -/
def rangeTest (r : List (List RangeComp)) (v : SemVer) : Bool :=
  r.any (fun set => testSet set v)

/-- `outside`'s `gtfn`: plain greater-than in `gtr` mode (`isHigh`),
less-than in `ltr` mode. -/
def hiloGt (isHigh : Bool) (a b : SemVer) : Bool :=
  if isHigh then svGt a b else svLt a b

def hiloLt (isHigh : Bool) (a b : SemVer) : Bool :=
  if isHigh then svLt a b else svGt a b

def hiloLte (isHigh : Bool) (a b : SemVer) : Bool :=
  if isHigh then svLte a b else svGte a b

/-- `outside` replaces a match-all comparator by `>=0.0.0`. -/
def substAny : RangeComp → CompOp × SemVer
  | .anyV => (.gteOp, ⟨0, 0, 0, []⟩)
  | .cmpV op w => (op, w)

/-- The high/low comparator scan of `outside` (first comparator starts both;
a comparator that beats `high` is not considered for `low`). -/
def pickHighLow (isHigh : Bool) :
    List (CompOp × SemVer) → (CompOp × SemVer) × (CompOp × SemVer)
  | [] => ((.gteOp, ⟨0, 0, 0, []⟩), (.gteOp, ⟨0, 0, 0, []⟩))
  | c :: rest =>
    rest.foldl
      (fun hl c2 =>
        if hiloGt isHigh c2.2 hl.1.2 then (c2, hl.2)
        else if hiloLt isHigh c2.2 hl.2.2 then (hl.1, c2)
        else hl)
      (c, c)

/-- One comparator set of `outside`: the version is beyond this set. -/
def outsideSet (v : SemVer) (set : List RangeComp) (isHigh : Bool) : Bool :=
  let set2 := set.map substAny
  let hl := pickHighLow isHigh set2
  let comp : CompOp := if isHigh then .gtOp else .ltOp
  let ecomp : CompOp := if isHigh then .gteOp else .lteOp
  if hl.1.1 = comp ∨ hl.1.1 = ecomp then false
  else if (hl.2.1 = .eqOp ∨ hl.2.1 = comp) && hiloLte isHigh v hl.2.2 then false
  else if hl.2.1 = ecomp && hiloLt isHigh v hl.2.2 then false
  else true

/-- `outside(version, range, hilo)`: the version does not satisfy the range
and sits beyond every comparator set on the given side. -/
def outside (v : SemVer) (r : List (List RangeComp)) (isHigh : Bool) : Bool :=
  if rangeTest r v then false
  else r.all (fun set => outsideSet v set isHigh)

/-! ### The string-level library entry points used by the script -/

/-- `semver.compare` on strings; `.error` models the thrown `Invalid Version`. -/
def semverCmpStr (a b : String) : Except String Ordering :=
  match parseSemVer a, parseSemVer b with
  | some x, some y => .ok (semverCompare x y)
  | _, _ => .error "Invalid Version"

/-- `semver.gt` (line 170). -/
def semverGt (a b : String) : Except String Bool :=
  (semverCmpStr a b).map (fun o => o == .gt)

/-- `semver.lt` (line 172). -/
def semverLt (a b : String) : Except String Bool :=
  (semverCmpStr a b).map (fun o => o == .lt)

/-- `semver.gtr` (line 179): the version is above every version the range
allows; `.error` models the thrown `Invalid Version`/`Invalid Comparator`. -/
def semverGtr (version range : String) : Except String Bool :=
  match parseSemVer version, parseRange range with
  | some v, some r => .ok (outside v r true)
  | _, _ => .error "Invalid Version"

/-- `semver.ltr` (line 181): the version is below every version the range
allows. -/
def semverLtr (version range : String) : Except String Bool :=
  match parseSemVer version, parseRange range with
  | some v, some r => .ok (outside v r false)
  | _, _ => .error "Invalid Version"

/-- `semver.satisfies`: range containment (used to state range claims). -/
def semverSatisfiesStr (version range : String) : Except String Bool :=
  match parseSemVer version, parseRange range with
  | some v, some r => .ok (rangeTest r v)
  | _, _ => .error "Invalid Version"

example : semverGt "10.0.0" "2.0.0" = .ok true := rfl
example : semverGt "2.0.0" "10.0.0" = .ok false := rfl
example : semverGt "1.0.0" "oops" = .error "Invalid Version" := rfl
example : semverSatisfiesStr "1.2.5" "~1.2.3" = .ok true := rfl
example : semverSatisfiesStr "1.3.0" "~1.2.3" = .ok false := rfl
example : semverSatisfiesStr "1.9.9" "^1.2.3" = .ok true := rfl
example : semverSatisfiesStr "2.0.0" "^1.2.3" = .ok false := rfl
example : semverGtr "2.0.0" "^1.2.3" = .ok true := rfl
example : semverGtr "1.9.9" "^1.2.3" = .ok false := rfl
example : semverLtr "1.0.0" "^1.2.3" = .ok true := rfl
example : semverGtr "2.0.0" "1.0.0" = .ok true := rfl
example : semverLtr "0.5.0" "1.0.0" = .ok true := rfl
example : semverGtr "2.0.0" ">=1.0.0" = .ok false := rfl
example : semverGtr "2.0.0" "1.0.0 || 3.0.0" = .ok false := rfl
example : semverLtr "2.0.0" "1.0.0 || 3.0.0" = .ok false := rfl

/-! ## Reconciler/Reporter (`postProcessPluginsInfo`, lines 129-209) -/

/-- Terminal colouring as a pure annotation: `clc.green.bold` /
`clc.red.bold` (lines 171, 174, 180, 182). -/
inductive Emphasis where
  | plain
  | greenBold
  | redBold
deriving DecidableEq

/-- One table cell: its text and its colouring. -/
structure Cell where
  text : String
  emph : Emphasis
deriving DecidableEq

/-- One table row (line 186-191): plugin name, expected, installed, newest. -/
structure Row where
  name : String
  expected : Cell
  installed : Cell
  newest : Cell
deriving DecidableEq

/-- `x || '-'` (lines 188-190): the cell shows the value when truthy
(with whatever colouring was applied), else the absent-marker dash. -/
def renderCell (v : Option String) (e : Emphasis) : Cell :=
  if jsTruthy v then { text := strOf v, emph := e } else { text := "-", emph := .plain }

/-- Line 165: `installedVersionJson || installedVersionXml`. -/
def installedResolved (r : PluginRecord) : Option String :=
  jsOr r.installedVersionJson r.installedVersionXml

/-- Line 149-150: the version-mismatch warning text. -/
def warning1Text (name json xml : String) : String :=
  name ++ ": version in package.json(" ++ json ++ ") does not match plugin.xml(" ++
    xml ++ "), assuming version in package.json."

/-- Line 156-158: the name-mismatch warning text. -/
def warning2Text (name folder : String) : String :=
  name ++ ": plugin npm name does not match its id from plugin.xml (" ++ folder ++ ")!"

/-- Lines 169-176: colouring of the newest cell.  `semver.gt`/`semver.lt`
throw on invalid versions; the error aborts the whole reconciler. -/
def newestMark (newest installed : Option String) : Except String Emphasis :=
  if jsTruthy newest && jsTruthy installed then
    match semverGt (strOf newest) (strOf installed) with
    | .error e => .error e
    | .ok true => .ok .greenBold
    | .ok false =>
      match semverLt (strOf newest) (strOf installed) with
      | .error e => .error e
      | .ok true => .ok .redBold
      | .ok false => .ok .plain
  else .ok .plain

/-- Lines 178-184: colouring of the installed/expected cells (in that order
in the result pair).  `semver.gtr` marks installed, else `semver.ltr` marks
expected; both throw on an invalid version or range. -/
def rangeMark (expected installed : Option String) : Except String (Emphasis × Emphasis) :=
  if jsTruthy expected && jsTruthy installed then
    match semverGtr (strOf installed) (strOf expected) with
    | .error e => .error e
    | .ok true => .ok (.redBold, .plain)
    | .ok false =>
      match semverLtr (strOf installed) (strOf expected) with
      | .error e => .error e
      | .ok true => .ok (.plain, .redBold)
      | .ok false => .ok (.plain, .plain)
  else .ok (.plain, .plain)

/-- Lines 148-160: the warnings pushed for one record, in push order: the
version-mismatch warning (both installed versions truthy and textually
different), then the name-mismatch warning (name differs from folder). -/
def recordWarnings (r : PluginRecord) : List String :=
  (if jsTruthy r.installedVersionJson && jsTruthy r.installedVersionXml &&
      strOf r.installedVersionJson != strOf r.installedVersionXml
   then [warning1Text r.pluginName (strOf r.installedVersionJson) (strOf r.installedVersionXml)]
   else []) ++
  (if r.pluginName = r.pluginFolder then []
   else [warning2Text r.pluginName r.pluginFolder])

/-- Line 162: the displayed name, annotated with the folder in parentheses
when they differ. -/
def displayNameOf (r : PluginRecord) : String :=
  if r.pluginName = r.pluginFolder then r.pluginName
  else r.pluginName ++ " (" ++ r.pluginFolder ++ ")"

/-- Lines 186-191: the row pushed for one record, given the computed
emphases (`ie` = (installed, expected)). -/
def rowOf (r : PluginRecord) (nE : Emphasis) (ie : Emphasis × Emphasis) : Row :=
  { name := displayNameOf r
    expected := renderCell r.expectedVersion ie.2
    installed := renderCell (installedResolved r) ie.1
    newest := renderCell r.newestVersion nE }

/-- The loop body (lines 142-192) for one record: the warnings it pushes (in
push order) and the row it appends, or the exception that escapes.  (In the
script the warnings are pushed before the semver comparisons run, but they
are only printed after the loop, so an escaping exception suppresses them.) -/
def processOne (r : PluginRecord) : Except String (Row × List String) :=
  match newestMark r.newestVersion (installedResolved r) with
  | .error e => .error e
  | .ok nE =>
    match rangeMark r.expectedVersion (installedResolved r) with
    | .error e => .error e
    | .ok ie => .ok (rowOf r nE ie, recordWarnings r)

/-- `postProcessPluginsInfo` (lines 129-209): rows in input order and all
warnings in encounter order; an exception thrown at any record aborts the
whole stage (the table is never returned). -/
def postProcessPluginsInfo (rs : List PluginRecord) :
    Except String (List Row × List String) :=
  match rs with
  | [] => .ok ([], [])
  | r :: rest =>
    match processOne r with
    | .error e => .error e
    | .ok rw =>
      match postProcessPluginsInfo rest with
      | .error e => .error e
      | .ok rws => .ok (rw.1 :: rws.1, rw.2 ++ rws.2)

/-! ## Registry lookup and the pipeline (`getNewestVersionsInfoFromNpm` and
`main`, lines 214-248) -/

/-- `Promise.all` over already-settled lookups: fails if any lookup fails,
else the values in order. -/
def promiseAll : List (Except String String) → Except String (List String)
  | [] => .ok []
  | .error e :: _ => .error e
  | .ok v :: rest =>
    match promiseAll rest with
    | .error e => .error e
    | .ok vs => .ok (v :: vs)

/-- `getNewestVersionsInfoFromNpm` (lines 214-226): one registry lookup per
record, by display name, joined with `Promise.all`. -/
def getNewestVersionsInfoFromNpm (npm : String → Except String String)
    (infos : List PluginRecord) : Except String (List String) :=
  promiseAll (infos.map (fun e => npm e.pluginName))

/-- Lines 233-235: `allPluginsInfo[idx].newestVersion = newestVersionsArr[idx]`. -/
def augmentWithNewest : List PluginRecord → List String → List PluginRecord
  | rs, [] => rs
  | [], _ :: _ => []
  | r :: rs, v :: vs => { r with newestVersion := some v } :: augmentWithNewest rs vs

/-- `main` (lines 228-248): read records, fetch newest versions, reconcile.
A rejection anywhere lands in the `.catch` handler (modelled as the error
channel) and no table is produced. -/
def mainPipeline (d : Disk) (npm : String → Except String String)
    (decls : List PluginDeclaration) : Except String (List Row × List String) :=
  match getNewestVersionsInfoFromNpm npm (readPluginInfoFromDisk d decls) with
  | .error e => .error e
  | .ok vs => postProcessPluginsInfo (augmentWithNewest (readPluginInfoFromDisk d decls) vs)

/-- Decidable equality for `Except`, for concrete evaluation of results. -/
instance {e a : Type} [DecidableEq e] [DecidableEq a] : DecidableEq (Except e a) := fun x y =>
  match x, y with
  | .error u, .error v =>
    if h : u = v then .isTrue (by rw [h]) else .isFalse (by simp [h])
  | .ok u, .ok v =>
    if h : u = v then .isTrue (by rw [h]) else .isFalse (by simp [h])
  | .error _, .ok _ => .isFalse (by simp)
  | .ok _, .error _ => .isFalse (by simp)

/-- The end-to-end scenario of the specification, as a model check: two
declarations, manifest/descriptor versions on disk, registry answers. -/
def scenarioDisk : Disk :=
  { pluginXmlExists := fun f => f = "foo" || f = "bar-id"
    pkgJsonExists := fun f => f = "foo" || f = "bar-id"
    pkgJsonVersionField := fun f =>
      if f = "foo" then some "1.0.0" else if f = "bar-id" then some "2.5.0" else none
    pluginXmlVersionAttr := fun f => if f = "bar-id" then some "2.0.0" else none }

def scenarioNpm : String → Except String String := fun n =>
  if n = "foo" then .ok "1.2.0" else if n = "bar" then .ok "2.5.0" else .error "404"

example :
    mainPipeline scenarioDisk scenarioNpm
      [.strD "foo@1.0.0", .objD (some "bar@2.0.0") (some "bar-id") none] =
    .ok ([{ name := "foo"
            expected := ⟨"1.0.0", .plain⟩
            installed := ⟨"1.0.0", .plain⟩
            newest := ⟨"1.2.0", .greenBold⟩ },
          { name := "bar (bar-id)"
            expected := ⟨"2.0.0", .plain⟩
            installed := ⟨"2.5.0", .redBold⟩
            newest := ⟨"2.5.0", .plain⟩ }],
         [warning1Text "bar" "2.5.0" "2.0.0", warning2Text "bar" "bar-id"]) := by
  decide

/-! ## Lemmas about the split model -/

theorem data_append (a b : String) : (a ++ b).data = a.data ++ b.data := rfl

theorem splitCharCore_no_sep {sep : Char} {l : List Char} (h : sep ∉ l) :
    splitCharCore sep l = (l, []) := by
  induction l with
  | nil => rfl
  | cons c cs ih =>
    simp only [List.mem_cons, not_or] at h
    simp [splitCharCore, ih h.2, Ne.symm h.1]

theorem splitCharCore_sep_append {sep : Char} {l1 : List Char} (l2 : List Char)
    (h : sep ∉ l1) :
    splitCharCore sep (l1 ++ sep :: l2) =
      (l1, (splitCharCore sep l2).1 :: (splitCharCore sep l2).2) := by
  induction l1 with
  | nil => simp [splitCharCore]
  | cons c cs ih =>
    simp only [List.mem_cons, not_or] at h
    simp [splitCharCore, ih h.2, Ne.symm h.1]

theorem jsSplitL_no_sep {sep : Char} {l : List Char} (h : sep ∉ l) :
    jsSplitL sep l = [l] := by
  simp [jsSplitL, splitCharCore_no_sep h]

theorem jsSplitL_sep_append {sep : Char} {l1 : List Char} (l2 : List Char)
    (h : sep ∉ l1) :
    jsSplitL sep (l1 ++ sep :: l2) = l1 :: jsSplitL sep l2 := by
  simp [jsSplitL, splitCharCore_sep_append l2 h]

theorem data_at2 (n v : String) : (n ++ "@" ++ v).data = n.data ++ '@' :: v.data := by
  simp [data_append]

theorem data_at3 (n v t : String) :
    (n ++ "@" ++ v ++ "@" ++ t).data = n.data ++ '@' :: (v.data ++ '@' :: t.data) := by
  simp [data_append]

theorem mk_data (s : String) : (⟨s.data⟩ : String) = s := rfl

theorem jsSplit_two {n v : String} (hn : '@' ∉ n.data) (hv : '@' ∉ v.data) :
    jsSplit '@' (n ++ "@" ++ v) = [n, v] := by
  simp [jsSplit, data_at2, jsSplitL_sep_append _ hn, jsSplitL_no_sep hv, mk_data]

theorem jsSplit_three {n v : String} (t : String) (hn : '@' ∉ n.data) (hv : '@' ∉ v.data) :
    jsSplit '@' (n ++ "@" ++ v ++ "@" ++ t) =
      n :: v :: (jsSplitL '@' t.data).map (fun l => ⟨l⟩) := by
  simp [jsSplit, data_at3, jsSplitL_sep_append _ hn, jsSplitL_sep_append _ hv, mk_data]

/-! ## Claim C4 (declaration parsing: bare strings) -/

/-- Spec wording, for comparison with the code: the substring strictly after
the first `@` of the declaration, absent when there is no `@`. -/
def afterFirstAt (s : String) : Option String :=
  match jsSplitL '@' s.data with
  | _ :: r :: rest => some ⟨joinChar '@' (r :: rest)⟩
  | _ => none

example : afterFirstAt "a@b@c" = some "b@c" := rfl
example : afterFirstAt "a@b" = some "b" := rfl
example : afterFirstAt "a" = none := rfl

/-- Claim C4 is false as stated: for the bare declaration "a@b@c" the code
takes `split('@')[1] = "b"` as expected version, not the substring after the
first `@`, which is "b@c". -/
theorem C4_counterexample :
    pluginNameOf (.strD "a@b@c") = "a" ∧
    expectedVersionOf (.strD "a@b@c") = some "b" ∧
    afterFirstAt "a@b@c" = some "b@c" ∧
    expectedVersionOf (.strD "a@b@c") ≠ afterFirstAt "a@b@c" := by
  refine ⟨rfl, rfl, rfl, ?_⟩
  decide

/-- Claim C4 (amended): for a bare-string declaration the parsed display name
is the substring before the first `@`; the expected version is absent when the
declaration has no `@`, and otherwise is the segment between the first `@` and
the second `@` (or the end), not everything after the first `@`. -/
theorem C4_bare_string_parsing (n v t : String)
    (hn : '@' ∉ n.data) (hv : '@' ∉ v.data) :
    pluginNameOf (.strD n) = n ∧
    expectedVersionOf (.strD n) = none ∧
    pluginNameOf (.strD (n ++ "@" ++ v)) = n ∧
    expectedVersionOf (.strD (n ++ "@" ++ v)) = some v ∧
    pluginNameOf (.strD (n ++ "@" ++ v ++ "@" ++ t)) = n ∧
    expectedVersionOf (.strD (n ++ "@" ++ v ++ "@" ++ t)) = some v := by
  have h1 : jsSplit '@' n = [n] := by
    simp [jsSplit, jsSplitL_no_sep hn, mk_data]
  refine ⟨?_, ?_, ?_, ?_, ?_, ?_⟩
  · simp [pluginNameOf, pluginNameAndVersionOf, h1]
  · simp [expectedVersionOf, pluginNameAndVersionOf, h1]
  · simp [pluginNameOf, pluginNameAndVersionOf, jsSplit_two hn hv]
  · simp [expectedVersionOf, pluginNameAndVersionOf, jsSplit_two hn hv]
  · simp [pluginNameOf, pluginNameAndVersionOf, jsSplit_three t hn hv]
  · simp [expectedVersionOf, pluginNameAndVersionOf, jsSplit_three t hn hv]

/-- Witness for C4 at a concrete declaration. -/
theorem C4_bare_string_parsing_witness :
    pluginNameOf (.strD "left-pad@1.0.0") = "left-pad" ∧
    expectedVersionOf (.strD "left-pad@1.0.0") = some "1.0.0" := by
  have h := C4_bare_string_parsing "left-pad" "1.0.0" "x" (by decide) (by decide)
  exact ⟨h.2.2.1, h.2.2.2.1⟩

/-! ## Claim C5 (declaration parsing: structured records) -/

theorem nameAndVersion_obj_locator (loc : String) (pid ver : Option String)
    (hat : '@' ∈ loc.data) :
    pluginNameAndVersionOf (.objD (some loc) pid ver) = loc := by
  have hne : loc.data ≠ [] := List.ne_nil_of_mem hat
  simp [pluginNameAndVersionOf, jsTruthy, strOf, hat, hne]

/-- Claim C5 is false as stated on its locator-splitting half: for the
structured declaration with locator "x@1.0.0@extra" the code takes
`split('@')[1] = "1.0.0"` as expected version, not the locator's text after
its first `@`, which is "1.0.0@extra". -/
theorem C5_counterexample :
    expectedVersionOf (.objD (some "x@1.0.0@extra") (some "x") none) = some "1.0.0" ∧
    afterFirstAt "x@1.0.0@extra" = some "1.0.0@extra" ∧
    expectedVersionOf (.objD (some "x@1.0.0@extra") (some "x") none) ≠
      afterFirstAt "x@1.0.0@extra" := by
  refine ⟨rfl, rfl, ?_⟩
  decide

/-- Claim C5 (amended): for a structured declaration whose locator contains
`@`, the parsed name is the locator's text before its first `@` and the
parsed version is the segment between the locator's first and second `@` (or
its end), regardless of the `id`/`version` fields; and for any declaration
supplying a truthy `id`, the folder name used for file lookups is exactly
that `id`, while the reported display name stays the parsed name. -/
theorem C5_structured_parsing (n v t loc : String) (pid ver : Option String)
    (hn : '@' ∉ n.data) (hv : '@' ∉ v.data)
    (hloc : loc = n ++ "@" ++ v ∨ loc = n ++ "@" ++ v ++ "@" ++ t) :
    pluginNameOf (.objD (some loc) pid ver) = n ∧
    expectedVersionOf (.objD (some loc) pid ver) = some v ∧
    (∀ loc2 pid2 ver2, jsTruthy pid2 = true →
        pluginFolderOf (.objD loc2 pid2 ver2) = strOf pid2) := by
  have hfold : ∀ loc2 pid2 ver2, jsTruthy pid2 = true →
      pluginFolderOf (.objD loc2 pid2 ver2) = strOf pid2 := by
    intro loc2 pid2 ver2 hp
    simp [pluginFolderOf, hp]
  rcases hloc with h | h <;> subst h
  · have hat : '@' ∈ (n ++ "@" ++ v).data := by
      simp [data_at2]
    have hnv := nameAndVersion_obj_locator (n ++ "@" ++ v) pid ver hat
    exact ⟨by simp [pluginNameOf, hnv, jsSplit_two hn hv],
           by simp [expectedVersionOf, hnv, jsSplit_two hn hv], hfold⟩
  · have hat : '@' ∈ (n ++ "@" ++ v ++ "@" ++ t).data := by
      simp [data_at3]
    have hnv := nameAndVersion_obj_locator (n ++ "@" ++ v ++ "@" ++ t) pid ver hat
    exact ⟨by simp [pluginNameOf, hnv, jsSplit_three t hn hv],
           by simp [expectedVersionOf, hnv, jsSplit_three t hn hv], hfold⟩

/-- Witness for C5 at a concrete declaration. -/
theorem C5_structured_parsing_witness :
    pluginNameOf (.objD (some "bar@2.0.0") (some "bar-id") none) = "bar" ∧
    expectedVersionOf (.objD (some "bar@2.0.0") (some "bar-id") none) = some "2.0.0" ∧
    pluginFolderOf (.objD (some "bar@2.0.0") (some "bar-id") none) = "bar-id" := by
  have h := C5_structured_parsing "bar" "2.0.0" "" "bar@2.0.0" (some "bar-id") none
    (by decide) (by decide) (Or.inl (by decide))
  exact ⟨h.1, h.2.1, h.2.2 (some "bar@2.0.0") (some "bar-id") none (by decide)⟩

/-! ## Lemmas about the reconciler -/

theorem processOne_ok_elim {r : PluginRecord} {row : Row} {w : List String}
    (hok : processOne r = .ok (row, w)) :
    ∃ nE ie, newestMark r.newestVersion (installedResolved r) = .ok nE ∧
      rangeMark r.expectedVersion (installedResolved r) = .ok ie ∧
      row = rowOf r nE ie ∧ w = recordWarnings r := by
  unfold processOne at hok
  cases hn : newestMark r.newestVersion (installedResolved r) with
  | error e => rw [hn] at hok; cases hok
  | ok nE =>
    rw [hn] at hok
    cases hr : rangeMark r.expectedVersion (installedResolved r) with
    | error e => rw [hr] at hok; cases hok
    | ok ie =>
      rw [hr] at hok
      simp only [Except.ok.injEq, Prod.mk.injEq] at hok
      exact ⟨nE, ie, rfl, rfl, hok.1.symm, hok.2.symm⟩

theorem renderCell_emph_of_truthy {v : Option String} (e : Emphasis)
    (h : jsTruthy v = true) : (renderCell v e).emph = e := by
  simp [renderCell, h]

/-- Case analysis of the newest-cell colouring when both guards hold. -/
theorem newestMark_cases {newest installed : Option String} {nE : Emphasis}
    (h : newestMark newest installed = .ok nE)
    (hn : jsTruthy newest = true) (hi : jsTruthy installed = true) :
    (nE = .greenBold ∧ semverGt (strOf newest) (strOf installed) = .ok true) ∨
    (nE = .redBold ∧ semverGt (strOf newest) (strOf installed) = .ok false ∧
      semverLt (strOf newest) (strOf installed) = .ok true) ∨
    (nE = .plain ∧ semverGt (strOf newest) (strOf installed) = .ok false ∧
      semverLt (strOf newest) (strOf installed) = .ok false) := by
  unfold newestMark at h
  rw [hn, hi] at h
  simp only [Bool.and_self, if_true] at h
  cases hg : semverGt (strOf newest) (strOf installed) with
  | error e => rw [hg] at h; cases h
  | ok b =>
    rw [hg] at h
    cases b with
    | true => cases h; exact Or.inl ⟨rfl, rfl⟩
    | false =>
      cases hl : semverLt (strOf newest) (strOf installed) with
      | error e => rw [hl] at h; cases h
      | ok c =>
        rw [hl] at h
        cases c with
        | true => cases h; exact Or.inr (Or.inl ⟨rfl, rfl, rfl⟩)
        | false => cases h; exact Or.inr (Or.inr ⟨rfl, rfl, rfl⟩)

/-- Case analysis of the installed/expected colouring when both guards hold. -/
theorem rangeMark_cases {expected installed : Option String} {ie : Emphasis × Emphasis}
    (h : rangeMark expected installed = .ok ie)
    (he : jsTruthy expected = true) (hi : jsTruthy installed = true) :
    (ie = (.redBold, .plain) ∧
      semverGtr (strOf installed) (strOf expected) = .ok true) ∨
    (ie = (.plain, .redBold) ∧
      semverGtr (strOf installed) (strOf expected) = .ok false ∧
      semverLtr (strOf installed) (strOf expected) = .ok true) ∨
    (ie = (.plain, .plain) ∧
      semverGtr (strOf installed) (strOf expected) = .ok false ∧
      semverLtr (strOf installed) (strOf expected) = .ok false) := by
  unfold rangeMark at h
  rw [he, hi] at h
  simp only [Bool.and_self, if_true] at h
  cases hg : semverGtr (strOf installed) (strOf expected) with
  | error e => rw [hg] at h; cases h
  | ok b =>
    rw [hg] at h
    cases b with
    | true => cases h; exact Or.inl ⟨rfl, rfl⟩
    | false =>
      cases hl : semverLtr (strOf installed) (strOf expected) with
      | error e => rw [hl] at h; cases h
      | ok c =>
        rw [hl] at h
        cases c with
        | true => cases h; exact Or.inr (Or.inl ⟨rfl, rfl, rfl⟩)
        | false => cases h; exact Or.inr (Or.inr ⟨rfl, rfl, rfl⟩)

/-! ## Claim C7 (installed-version preference) -/

/-- Claim C7: in every produced row, the Installed cell text is the manifest
(package.json) version when truthy, else the descriptor (plugin.xml) version
when truthy, else the dash absent-marker; the manifest version wins even when
a different descriptor version exists. -/
theorem C7_installed_preference (r : PluginRecord) (row : Row) (w : List String)
    (hok : processOne r = .ok (row, w)) :
    row.installed.text =
      if jsTruthy r.installedVersionJson = true then strOf r.installedVersionJson
      else if jsTruthy r.installedVersionXml = true then strOf r.installedVersionXml
      else "-" := by
  obtain ⟨nE, ie, hn, hr, hrow, hw⟩ := processOne_ok_elim hok
  subst hrow
  by_cases hj : jsTruthy r.installedVersionJson = true <;>
    by_cases hx : jsTruthy r.installedVersionXml = true <;>
      simp [rowOf, renderCell, installedResolved, jsOr, hj, hx]

def rC7w : PluginRecord :=
  { pluginName := "p", pluginFolder := "p", expectedVersion := none,
    installedVersionJson := some "2.5.0", installedVersionXml := some "2.0.0",
    newestVersion := none }

def rowC7w : Row :=
  { name := "p", expected := ⟨"-", .plain⟩, installed := ⟨"2.5.0", .plain⟩,
    newest := ⟨"-", .plain⟩ }

/-- Witness for C7: differing manifest and descriptor versions; the manifest
version is displayed. -/
theorem C7_installed_preference_witness : rowC7w.installed.text = "2.5.0" :=
  C7_installed_preference rC7w rowC7w [warning1Text "p" "2.5.0" "2.0.0"] (by decide)

/-! ## Claim C9 (newest-version highlighting uses semver precedence) -/

/-- Claim C9: when latest and installed are both present, the newest cell
carries the newer-available (green) emphasis exactly when latest > installed
under semantic-version precedence, and the unexpected-downgrade (red)
emphasis exactly when latest < installed; the ordering is semver precedence,
under which "2.0.0" is not greater than "10.0.0" (although it is greater
lexically). -/
theorem C9_newest_marking (r : PluginRecord) (row : Row) (w : List String)
    (hok : processOne r = .ok (row, w))
    (hn : jsTruthy r.newestVersion = true)
    (hi : jsTruthy (installedResolved r) = true) :
    (row.newest.emph = .greenBold ↔
      semverGt (strOf r.newestVersion) (strOf (installedResolved r)) = .ok true) ∧
    (row.newest.emph = .redBold ↔
      (semverGt (strOf r.newestVersion) (strOf (installedResolved r)) = .ok false ∧
       semverLt (strOf r.newestVersion) (strOf (installedResolved r)) = .ok true)) ∧
    semverGt "2.0.0" "10.0.0" = .ok false ∧
    semverGt "10.0.0" "2.0.0" = .ok true := by
  obtain ⟨nE, ie, hm, hr2, hrow, hw⟩ := processOne_ok_elim hok
  subst hrow
  have hemph : (rowOf r nE ie).newest.emph = nE := renderCell_emph_of_truthy nE hn
  rw [hemph]
  rcases newestMark_cases hm hn hi with ⟨h1, h2⟩ | ⟨h1, h2, h3⟩ | ⟨h1, h2, h3⟩ <;>
    subst h1 <;>
    refine ⟨?_, ?_, by decide, by decide⟩ <;>
    simp [h2] <;> simp_all

def rC9w : PluginRecord :=
  { pluginName := "p", pluginFolder := "p", expectedVersion := none,
    installedVersionJson := some "2.0.0", installedVersionXml := none,
    newestVersion := some "10.0.0" }

def rowC9w : Row :=
  { name := "p", expected := ⟨"-", .plain⟩, installed := ⟨"2.0.0", .plain⟩,
    newest := ⟨"10.0.0", .greenBold⟩ }

/-- Witness for C9: newest "10.0.0" against installed "2.0.0" is marked
newer-available (which lexical string ordering would get wrong). -/
theorem C9_newest_marking_witness :
    rowC9w.newest.emph = .greenBold ↔
      semverGt "10.0.0" "2.0.0" = .ok true :=
  (C9_newest_marking rC9w rowC9w [] (by decide) (by decide) (by decide)).1

/-! ## Claim C1 (constraint-violation marking) -/

def rC1cex : PluginRecord :=
  { pluginName := "p", pluginFolder := "p", expectedVersion := some "1.0.0",
    installedVersionJson := some "2.0.0", installedVersionXml := none,
    newestVersion := none }

/-- Claim C1 is false as stated: for expected "1.0.0" and installed "2.0.0",
the installed version is outside the expected range (containment is false),
yet the code marks only the installed cell red and leaves the expected cell
plain, not both. -/
theorem C1_counterexample :
    semverSatisfiesStr "2.0.0" "1.0.0" = .ok false ∧
    processOne rC1cex =
      .ok ({ name := "p", expected := ⟨"1.0.0", .plain⟩,
             installed := ⟨"2.0.0", .redBold⟩, newest := ⟨"-", .plain⟩ }, []) := by
  exact ⟨by decide, by decide⟩

set_option linter.unnecessarySeqFocus false in
/-- Claim C1 (amended): when expected and installed are both present, the
code marks only the installed cell with the constraint-violation emphasis
when installed is greater than every version of the expected range, and
only the expected cell when installed is lower than every version of the
range; the two cells are never both marked. -/
theorem C1_constraint_marking (r : PluginRecord) (row : Row) (w : List String)
    (hok : processOne r = .ok (row, w))
    (he : jsTruthy r.expectedVersion = true)
    (hi : jsTruthy (installedResolved r) = true) :
    (semverGtr (strOf (installedResolved r)) (strOf r.expectedVersion) = .ok true →
      row.installed.emph = .redBold ∧ row.expected.emph = .plain) ∧
    (semverGtr (strOf (installedResolved r)) (strOf r.expectedVersion) = .ok false →
     semverLtr (strOf (installedResolved r)) (strOf r.expectedVersion) = .ok true →
      row.installed.emph = .plain ∧ row.expected.emph = .redBold) ∧
    ¬(row.installed.emph = .redBold ∧ row.expected.emph = .redBold) := by
  obtain ⟨nE, ie, hm, hr2, hrow, hw⟩ := processOne_ok_elim hok
  subst hrow
  have hei : (rowOf r nE ie).installed.emph = ie.1 := renderCell_emph_of_truthy ie.1 hi
  have hee : (rowOf r nE ie).expected.emph = ie.2 := renderCell_emph_of_truthy ie.2 he
  rw [hei, hee]
  rcases rangeMark_cases hr2 he hi with ⟨h1, h2⟩ | ⟨h1, h2, h3⟩ | ⟨h1, h2, h3⟩ <;>
    (subst h1; refine ⟨?_, ?_, ?_⟩) <;> simp [h2] <;> simp_all

def rC1w : PluginRecord :=
  { pluginName := "p", pluginFolder := "p", expectedVersion := some "1.0.0",
    installedVersionJson := some "3.0.0", installedVersionXml := none,
    newestVersion := none }

def rowC1w : Row :=
  { name := "p", expected := ⟨"1.0.0", .plain⟩, installed := ⟨"3.0.0", .redBold⟩,
    newest := ⟨"-", .plain⟩ }

/-- Witness for C1: installed "3.0.0" above expected "1.0.0" marks only the
installed cell. -/
theorem C1_constraint_marking_witness :
    rowC1w.installed.emph = .redBold ∧ rowC1w.expected.emph = .plain :=
  (C1_constraint_marking rC1w rowC1w [] (by decide) (by decide) (by decide)).1 (by decide)

/-! ## Claim C6 (missing descriptor file) -/

/-- A record with no installed versions is processed without error and its
Installed cell is the dash absent-marker. -/
theorem processOne_no_installed {r : PluginRecord}
    (hj : r.installedVersionJson = none) (hx : r.installedVersionXml = none) :
    ∃ row w, processOne r = .ok (row, w) ∧ row.installed = ⟨"-", .plain⟩ := by
  have hi : installedResolved r = none := by
    simp [installedResolved, jsOr, hj, hx, jsTruthy]
  have hm : newestMark r.newestVersion (installedResolved r) = .ok .plain := by
    simp [newestMark, hi, jsTruthy]
  have hr : rangeMark r.expectedVersion (installedResolved r) = .ok (.plain, .plain) := by
    simp [rangeMark, hi, jsTruthy]
  refine ⟨rowOf r .plain (.plain, .plain), recordWarnings r, ?_, ?_⟩
  · simp [processOne, hm, hr]
  · simp [rowOf, renderCell, hi, jsTruthy]

/-- Claim C6: when the descriptor file (plugin.xml) of a plugin's folder does
not exist, the manifest probe is skipped (whatever the manifest probe would
have answered), both installed-version fields stay absent, and the rendered
Installed cell is the dash absent-marker. -/
theorem C6_missing_descriptor (d : Disk) (decl : PluginDeclaration) (nv : Option String)
    (h : d.pluginXmlExists (pluginFolderOf decl) = false) :
    (readOnePlugin d decl).installedVersionJson = none ∧
    (readOnePlugin d decl).installedVersionXml = none ∧
    ∃ row w,
      processOne { readOnePlugin d decl with newestVersion := nv } = .ok (row, w) ∧
      row.installed = ⟨"-", .plain⟩ := by
  refine ⟨by simp [readOnePlugin, h], by simp [readOnePlugin, h], ?_⟩
  exact processOne_no_installed (by simp [readOnePlugin, h]) (by simp [readOnePlugin, h])

/-- Witness for C6: a fully absent disk, a bare declaration, a fetched newest
version. -/
theorem C6_missing_descriptor_witness :
    (readOnePlugin emptyDisk (.strD "foo@1.0.0")).installedVersionJson = none ∧
    (readOnePlugin emptyDisk (.strD "foo@1.0.0")).installedVersionXml = none ∧
    ∃ row w,
      processOne { readOnePlugin emptyDisk (.strD "foo@1.0.0") with
                     newestVersion := some "2.0.0" } = .ok (row, w) ∧
      row.installed = ⟨"-", .plain⟩ :=
  C6_missing_descriptor emptyDisk (.strD "foo@1.0.0") (some "2.0.0") rfl

/-! ## Claim C10 (empty-string expected version behaves as absent) -/

/-- Claim C10: a bare declaration ending in `@` and a structured declaration
with an `id` but no version both yield the empty string as expected version,
and an empty-string expected version is treated downstream exactly as an
absent one: processing the record is literally the same as processing it
with no expected version, the range comparison never fires (and never
errors), and the Expected cell renders the dash absent-marker. -/
theorem C10_empty_expected (n pidS : String) (hn : '@' ∉ n.data) (hpid : '@' ∉ pidS.data)
    (loc : Option String) (hloc : ¬(jsTruthy loc = true ∧ '@' ∈ (strOf loc).data))
    (r : PluginRecord) :
    expectedVersionOf (.strD (n ++ "@")) = some "" ∧
    expectedVersionOf (.objD loc (some pidS) none) = some "" ∧
    processOne { r with expectedVersion := some "" } =
      processOne { r with expectedVersion := none } ∧
    (∀ installed, rangeMark (some "") installed = .ok (.plain, .plain)) ∧
    (∀ row w, processOne { r with expectedVersion := some "" } = .ok (row, w) →
      row.expected = ⟨"-", .plain⟩) := by
  have hsplit1 : jsSplit '@' (n ++ "@" ++ "") = [n, ""] := jsSplit_two hn (by simp)
  refine ⟨?_, ?_, ?_, ?_, ?_⟩
  · have : (n ++ "@") = (n ++ "@" ++ "") := by simp
    rw [expectedVersionOf, pluginNameAndVersionOf, this, hsplit1]
    rfl
  · rw [expectedVersionOf, pluginNameAndVersionOf]
    simp only [hloc, if_false]
    have : jsToStr (some pidS) ++ "@" ++ (if jsTruthy none then strOf none else "") =
        pidS ++ "@" ++ "" := rfl
    rw [this, jsSplit_two hpid (by simp)]
    rfl
  · rfl
  · intro installed
    rfl
  · intro row w hok
    obtain ⟨nE, ie, hm, hr2, hrow, hw⟩ := processOne_ok_elim hok
    subst hrow
    rfl

def rC10w : PluginRecord :=
  { pluginName := "q", pluginFolder := "q", expectedVersion := some "",
    installedVersionJson := some "1.0.0", installedVersionXml := none,
    newestVersion := none }

/-- Witness for C10 at concrete declarations and a concrete record. -/
theorem C10_empty_expected_witness :
    expectedVersionOf (.strD "p@") = some "" ∧
    expectedVersionOf (.objD none (some "q") none) = some "" ∧
    processOne { rC10w with expectedVersion := some "" } =
      processOne { rC10w with expectedVersion := none } := by
  have h := C10_empty_expected "p" "q" (by decide) (by decide) none (by decide) rC10w
  exact ⟨h.1, h.2.1, h.2.2.1⟩

/-! ## Claim C3 (reconciler failure modes) -/

def rC3cex : PluginRecord :=
  { pluginName := "p", pluginFolder := "p", expectedVersion := none,
    installedVersionJson := some "not-a-version", installedVersionXml := none,
    newestVersion := some "1.0.0" }

/-- Claim C3 is false as stated: a record fully populated with installed and
latest version data, where the installed string is not a valid semantic
version, makes the reconciler throw (the `semver.gt` call at line 170), so
no table is produced. -/
theorem C3_counterexample :
    postProcessPluginsInfo [rC3cex] = .error "Invalid Version" := by
  decide

theorem semverCmpStr_ok {a b : String} {va vb : SemVer}
    (ha : parseSemVer a = some va) (hb : parseSemVer b = some vb) :
    semverCmpStr a b = .ok (semverCompare va vb) := by
  simp [semverCmpStr, ha, hb]

theorem semverGt_ok {a b : String} {va vb : SemVer}
    (ha : parseSemVer a = some va) (hb : parseSemVer b = some vb) :
    semverGt a b = .ok (semverCompare va vb == .gt) := by
  simp [semverGt, semverCmpStr_ok ha hb, Except.map]

theorem semverLt_ok {a b : String} {va vb : SemVer}
    (ha : parseSemVer a = some va) (hb : parseSemVer b = some vb) :
    semverLt a b = .ok (semverCompare va vb == .lt) := by
  simp [semverLt, semverCmpStr_ok ha hb, Except.map]

theorem semverGtr_ok {v e : String} {sv : SemVer} {re : List (List RangeComp)}
    (hv : parseSemVer v = some sv) (he : parseRange e = some re) :
    semverGtr v e = .ok (outside sv re true) := by
  simp [semverGtr, hv, he]

theorem semverLtr_ok {v e : String} {sv : SemVer} {re : List (List RangeComp)}
    (hv : parseSemVer v = some sv) (he : parseRange e = some re) :
    semverLtr v e = .ok (outside sv re false) := by
  simp [semverLtr, hv, he]

/-- The validity precondition under which the reconciler cannot throw for a
record: every version string it would hand to the semver library parses, and
every expected value it would hand over parses as a range. -/
def recordSemverValid (r : PluginRecord) : Prop :=
  (jsTruthy r.newestVersion = true → jsTruthy (installedResolved r) = true →
    (parseSemVer (strOf r.newestVersion)).isSome = true ∧
    (parseSemVer (strOf (installedResolved r))).isSome = true) ∧
  (jsTruthy r.expectedVersion = true → jsTruthy (installedResolved r) = true →
    (parseSemVer (strOf (installedResolved r))).isSome = true ∧
    (parseRange (strOf r.expectedVersion)).isSome = true)

theorem newestMark_ok {newest installed : Option String}
    (h : jsTruthy newest = true → jsTruthy installed = true →
      (parseSemVer (strOf newest)).isSome = true ∧
      (parseSemVer (strOf installed)).isSome = true) :
    ∃ nE, newestMark newest installed = .ok nE := by
  unfold newestMark
  by_cases hn : jsTruthy newest = true
  case neg => exact ⟨.plain, by simp [hn]⟩
  by_cases hi : jsTruthy installed = true
  case neg => exact ⟨.plain, by simp [hi]⟩
  obtain ⟨ha, hb⟩ := h hn hi
  obtain ⟨va, hva⟩ := Option.isSome_iff_exists.mp ha
  obtain ⟨vb, hvb⟩ := Option.isSome_iff_exists.mp hb
  rw [hn, hi, semverGt_ok hva hvb, semverLt_ok hva hvb]
  cases semverCompare va vb == Ordering.gt
  · cases semverCompare va vb == Ordering.lt
    · exact ⟨.plain, rfl⟩
    · exact ⟨.redBold, rfl⟩
  · exact ⟨.greenBold, rfl⟩

theorem rangeMark_ok {expected installed : Option String}
    (h : jsTruthy expected = true → jsTruthy installed = true →
      (parseSemVer (strOf installed)).isSome = true ∧
      (parseRange (strOf expected)).isSome = true) :
    ∃ ie, rangeMark expected installed = .ok ie := by
  unfold rangeMark
  by_cases he : jsTruthy expected = true
  case neg => exact ⟨(.plain, .plain), by simp [he]⟩
  by_cases hi : jsTruthy installed = true
  case neg => exact ⟨(.plain, .plain), by simp [hi]⟩
  obtain ⟨ha, hb⟩ := h he hi
  obtain ⟨sv, hsv⟩ := Option.isSome_iff_exists.mp ha
  obtain ⟨re, hre⟩ := Option.isSome_iff_exists.mp hb
  rw [he, hi, semverGtr_ok hsv hre, semverLtr_ok hsv hre]
  cases outside sv re true
  · cases outside sv re false
    · exact ⟨(.plain, .plain), rfl⟩
    · exact ⟨(.plain, .redBold), rfl⟩
  · exact ⟨(.redBold, .plain), rfl⟩

theorem processOne_ok_of_valid {r : PluginRecord} (h : recordSemverValid r) :
    ∃ rw, processOne r = .ok rw := by
  obtain ⟨nE, hm⟩ := newestMark_ok h.1
  obtain ⟨ie, hr⟩ := rangeMark_ok h.2
  exact ⟨(rowOf r nE ie, recordWarnings r), by simp [processOne, hm, hr]⟩

/-- Claim C3 (amended): the reconciler/reporter completes normally — a table
with one row per record plus an ordered warning list, and no error — for
every input sequence of records whose version data is valid for the semver
library: whenever a comparison guard fires, the compared version strings
parse as semantic versions and the expected value parses as a range.
(Without that proviso the claim is false: see the counterexample.) -/
theorem C3_no_failure (rs : List PluginRecord) (h : ∀ r ∈ rs, recordSemverValid r) :
    ∃ rows ws, postProcessPluginsInfo rs = .ok (rows, ws) ∧ rows.length = rs.length := by
  induction rs with
  | nil => exact ⟨[], [], rfl, rfl⟩
  | cons r rest ih =>
    obtain ⟨⟨row, w⟩, hp⟩ := processOne_ok_of_valid (h r (List.mem_cons_self r rest))
    obtain ⟨rows, ws, hq, hlen⟩ := ih (fun y hy => h y (List.mem_cons_of_mem r hy))
    refine ⟨row :: rows, w ++ ws, ?_, by simp [hlen]⟩
    unfold postProcessPluginsInfo
    rw [hp, hq]

def rC3w : PluginRecord :=
  { pluginName := "p", pluginFolder := "p", expectedVersion := some "^1.0.0",
    installedVersionJson := some "1.0.0", installedVersionXml := none,
    newestVersion := some "1.2.0" }

/-- Witness for C3 on a valid record. -/
theorem C3_no_failure_witness :
    ∃ rows ws, postProcessPluginsInfo [rC3w] = .ok (rows, ws) ∧ rows.length = 1 :=
  C3_no_failure [rC3w]
    (fun r hr => by
      simp only [List.mem_singleton] at hr
      subst hr
      exact ⟨fun _ _ => ⟨by decide, by decide⟩, fun _ _ => ⟨by decide, by decide⟩⟩)

/-! ## Claim C8 (warning policy) -/

theorem recordWarnings_spec (r : PluginRecord) :
    recordWarnings r =
      (if jsTruthy r.installedVersionJson = true ∧ jsTruthy r.installedVersionXml = true ∧
          strOf r.installedVersionJson ≠ strOf r.installedVersionXml
       then [warning1Text r.pluginName (strOf r.installedVersionJson)
               (strOf r.installedVersionXml)]
       else []) ++
      (if r.pluginName ≠ r.pluginFolder
       then [warning2Text r.pluginName r.pluginFolder]
       else []) := by
  unfold recordWarnings
  congr 1
  · by_cases h1 : jsTruthy r.installedVersionJson = true <;>
      by_cases h2 : jsTruthy r.installedVersionXml = true <;>
        by_cases h3 : strOf r.installedVersionJson = strOf r.installedVersionXml <;>
          simp [h1, h2, h3, bne_iff_ne]
  · by_cases h : r.pluginName = r.pluginFolder <;> simp [h]

theorem displayNameOf_spec (r : PluginRecord) :
    displayNameOf r =
      if r.pluginName ≠ r.pluginFolder
      then r.pluginName ++ " (" ++ r.pluginFolder ++ ")"
      else r.pluginName := by
  unfold displayNameOf
  by_cases h : r.pluginName = r.pluginFolder <;> simp [h]

theorem postProcess_ok_elim (rs : List PluginRecord) :
    ∀ rows ws, postProcessPluginsInfo rs = .ok (rows, ws) →
      ws = (rs.map recordWarnings).flatten ∧
      rows.length = rs.length ∧
      rows.map Row.name = rs.map displayNameOf := by
  induction rs with
  | nil =>
    intro rows ws h
    simp only [postProcessPluginsInfo, Except.ok.injEq, Prod.mk.injEq] at h
    obtain ⟨h1, h2⟩ := h
    simp [← h1, ← h2]
  | cons r rest ih =>
    intro rows ws h
    unfold postProcessPluginsInfo at h
    cases hp : processOne r with
    | error e => rw [hp] at h; cases h
    | ok rw1 =>
      rw [hp] at h
      cases hq : postProcessPluginsInfo rest with
      | error e => rw [hq] at h; cases h
      | ok rws =>
        rw [hq] at h
        simp only [Except.ok.injEq, Prod.mk.injEq] at h
        obtain ⟨h1, h2⟩ := h
        obtain ⟨hw, hlen, hnames⟩ := ih rws.1 rws.2 (by rw [hq])
        have hp2 : processOne r = .ok (rw1.1, rw1.2) := by rw [hp]
        obtain ⟨nE, ie, _, _, hrow, hwarn⟩ := processOne_ok_elim hp2
        refine ⟨?_, ?_, ?_⟩
        · rw [← h2, hwarn, hw]
          simp
        · rw [← h1]
          simp [hlen]
        · rw [← h1]
          simp only [List.map_cons, hnames, hrow, List.map]
          rfl

/-- Claim C8: warnings are exactly these, aggregated per record in encounter
order with no deduplication: a version-mismatch warning precisely when both
installed versions are present (truthy) and textually different, then a
name-mismatch warning precisely when the display name differs from the
folder name; in that case the rendered row name is annotated with the folder
name in parentheses. -/
theorem C8_warnings (rs : List PluginRecord) (rows : List Row) (ws : List String)
    (hok : postProcessPluginsInfo rs = .ok (rows, ws)) :
    ws = (rs.map (fun r =>
        (if jsTruthy r.installedVersionJson = true ∧ jsTruthy r.installedVersionXml = true ∧
            strOf r.installedVersionJson ≠ strOf r.installedVersionXml
         then [warning1Text r.pluginName (strOf r.installedVersionJson)
                 (strOf r.installedVersionXml)]
         else []) ++
        (if r.pluginName ≠ r.pluginFolder
         then [warning2Text r.pluginName r.pluginFolder]
         else []))).flatten ∧
    rows.map Row.name = rs.map (fun r =>
        if r.pluginName ≠ r.pluginFolder
        then r.pluginName ++ " (" ++ r.pluginFolder ++ ")"
        else r.pluginName) := by
  obtain ⟨hw, hlen, hnames⟩ := postProcess_ok_elim rs rows ws hok
  constructor
  · rw [hw]
    exact congrArg List.flatten (List.map_congr_left fun r _ => recordWarnings_spec r)
  · rw [hnames]
    exact List.map_congr_left fun r _ => displayNameOf_spec r

def rBarW : PluginRecord :=
  { pluginName := "bar", pluginFolder := "bar-id", expectedVersion := none,
    installedVersionJson := some "2.5.0", installedVersionXml := some "2.0.0",
    newestVersion := none }

def rowBarW : Row :=
  { name := "bar (bar-id)", expected := ⟨"-", .plain⟩, installed := ⟨"2.5.0", .plain⟩,
    newest := ⟨"-", .plain⟩ }

/-- Witness for C8: a record triggering both warnings. -/
theorem C8_warnings_witness :
    [warning1Text "bar" "2.5.0" "2.0.0", warning2Text "bar" "bar-id"] =
      ([rBarW].map (fun r =>
        (if jsTruthy r.installedVersionJson = true ∧ jsTruthy r.installedVersionXml = true ∧
            strOf r.installedVersionJson ≠ strOf r.installedVersionXml
         then [warning1Text r.pluginName (strOf r.installedVersionJson)
                 (strOf r.installedVersionXml)]
         else []) ++
        (if r.pluginName ≠ r.pluginFolder
         then [warning2Text r.pluginName r.pluginFolder]
         else []))).flatten ∧
    [rowBarW].map Row.name = [rBarW].map (fun r =>
        if r.pluginName ≠ r.pluginFolder
        then r.pluginName ++ " (" ++ r.pluginFolder ++ ")"
        else r.pluginName) :=
  C8_warnings [rBarW] [rowBarW]
    [warning1Text "bar" "2.5.0" "2.0.0", warning2Text "bar" "bar-id"] (by decide)

/-! ## Claim C2 (all-or-fail registry join) -/

/-- The value of a successful lookup (only read under a success hypothesis). -/
def okValueD : Except String String → String
  | .ok v => v
  | .error _ => ""

theorem promiseAll_error {l : List (Except String String)}
    (h : ∃ x ∈ l, ∃ e, x = Except.error e) :
    ∃ e2, promiseAll l = .error e2 := by
  induction l with
  | nil => simp at h
  | cons x xs ih =>
    obtain ⟨y, hy, e, he⟩ := h
    rcases List.mem_cons.mp hy with h1 | h1
    · rw [← h1, he]
      exact ⟨e, rfl⟩
    · cases x with
      | error e2 => exact ⟨e2, rfl⟩
      | ok v =>
        obtain ⟨e3, he3⟩ := ih ⟨y, h1, e, he⟩
        exact ⟨e3, by simp [promiseAll, he3]⟩

theorem promiseAll_ok (f : PluginRecord → Except String String) (l : List PluginRecord)
    (h : ∀ x ∈ l, ∃ v, f x = .ok v) :
    promiseAll (l.map f) = .ok (l.map (fun x => okValueD (f x))) := by
  induction l with
  | nil => rfl
  | cons x xs ih =>
    obtain ⟨v, hv⟩ := h x (List.mem_cons_self x xs)
    have hrest := ih (fun y hy => h y (List.mem_cons_of_mem x hy))
    simp only [List.map_cons, promiseAll, hv, hrest, okValueD]

theorem augmentWithNewest_map (rs : List PluginRecord) (g : PluginRecord → String) :
    augmentWithNewest rs (rs.map g) =
      rs.map (fun r => { r with newestVersion := some (g r) }) := by
  induction rs with
  | nil => rfl
  | cons r rest ih => simp [augmentWithNewest, ih]

/-- Claim C2: the registry stage is an all-or-fail join.  If any lookup
fails, the whole pipeline fails (the reconciler never runs, no table
exists); if every lookup succeeds, the reconciler is invoked on exactly one
record per declaration, in declaration order, each with its newest-version
field set to the registry answer for its display name. -/
theorem C2_all_or_fail (d : Disk) (npm : String → Except String String)
    (decls : List PluginDeclaration) :
    ((∃ r ∈ readPluginInfoFromDisk d decls, ∃ e, npm r.pluginName = .error e) →
      ∃ e2, mainPipeline d npm decls = .error e2) ∧
    ((∀ r ∈ readPluginInfoFromDisk d decls, ∃ v, npm r.pluginName = .ok v) →
      (readPluginInfoFromDisk d decls).length = decls.length ∧
      mainPipeline d npm decls =
        postProcessPluginsInfo ((readPluginInfoFromDisk d decls).map
          (fun r => { r with newestVersion := some (okValueD (npm r.pluginName)) })) ∧
      (∀ r ∈ readPluginInfoFromDisk d decls,
        npm r.pluginName = .ok (okValueD (npm r.pluginName)))) := by
  constructor
  · intro ⟨r, hr, e, he⟩
    have hmem : ∃ x ∈ (readPluginInfoFromDisk d decls).map (fun y => npm y.pluginName),
        ∃ e2, x = Except.error e2 :=
      ⟨npm r.pluginName, List.mem_map_of_mem _ hr, e, he⟩
    obtain ⟨e2, he2⟩ := promiseAll_error hmem
    refine ⟨e2, ?_⟩
    unfold mainPipeline getNewestVersionsInfoFromNpm
    rw [he2]
  · intro h
    have hall : promiseAll ((readPluginInfoFromDisk d decls).map
          (fun y => npm y.pluginName)) =
        .ok ((readPluginInfoFromDisk d decls).map
          (fun r => okValueD (npm r.pluginName))) :=
      promiseAll_ok _ _ h
    refine ⟨by simp [readPluginInfoFromDisk], ?_, fun r hr => ?_⟩
    · unfold mainPipeline getNewestVersionsInfoFromNpm
      rw [hall]
      exact congrArg postProcessPluginsInfo (augmentWithNewest_map _ _)
    · obtain ⟨v, hv⟩ := h r hr
      rw [hv]
      simp [okValueD, hv]

def npmFailW : String → Except String String := fun _ => .error "registry down"

/-- Witness for C2: a failing registry aborts the pipeline. -/
theorem C2_all_or_fail_witness :
    ∃ e2, mainPipeline emptyDisk npmFailW [.strD "a@1.0.0"] = .error e2 :=
  (C2_all_or_fail emptyDisk npmFailW [.strD "a@1.0.0"]).1
    ⟨readOnePlugin emptyDisk (.strD "a@1.0.0"), by simp [readPluginInfoFromDisk],
      "registry down", rfl⟩
